import Mathlib

/-!
Verification of the orchestration core of the AI-Assistant-MCP repository:
the EventBus (src/core/events.py), the Registry (src/core/registry.py), the
Agent and Tool execution contracts (src/agents/base.py, src/tools/base.py)
and the Controller command pipeline (src/core/controller.py), shallowly
embedded as executable Lean functions.  Timestamps and generated uuids are
not modelled; uuid-valued identifiers appear as explicit parameters.
-/

namespace MCP

/-- Python truthiness of an optional string: `None` and the empty string are
falsy, every other string is truthy. -/
def truthyStr : Option String → Bool
  | none => false
  | some s => !(s = "")

/-- Python `str()` rendering of an optional string inside an f-string:
`None` prints as "None". -/
def pyStr : Option String → String
  | none => "None"
  | some s => s

/-- Lookup in an insertion-ordered string-keyed dictionary (Python `dict`). -/
def dictGet {β : Type _} : List (String × β) → String → Option β
  | [], _ => none
  | (k', v) :: rest, k => if k' = k then some v else dictGet rest k

/-- Assignment `d[k] = v` in an insertion-ordered string-keyed dictionary:
replaces the value in place when the key exists, appends otherwise. -/
def dictInsert {β : Type _} : List (String × β) → String → β → List (String × β)
  | [], k, v => [(k, v)]
  | (k', v') :: rest, k, v =>
      if k' = k then (k, v) :: rest else (k', v') :: dictInsert rest k v

theorem dictGet_insert_self {β : Type _} (d : List (String × β)) (k : String) (v : β) :
    dictGet (dictInsert d k v) k = some v := by
  induction d with
  | nil => simp [dictInsert, dictGet]
  | cons hd tl ih =>
      by_cases h : hd.1 = k
      · simp [dictInsert, dictGet, h]
      · simp [dictInsert, dictGet, h, ih]

theorem dictGet_insert_ne {β : Type _} (d : List (String × β)) (k k' : String) (v : β)
    (h : k ≠ k') : dictGet (dictInsert d k v) k' = dictGet d k' := by
  induction d with
  | nil => simp [dictInsert, dictGet, h]
  | cons hd tl ih =>
      by_cases hk : hd.1 = k
      · simp [dictInsert, dictGet, hk, h]
      · simp [dictInsert, dictGet, hk, ih]

/-- Bounded-history append (`history.append(x); if len(history) > max: history.pop(0)`),
shared by EventBus.publish, Tool._add_to_history and AgentMemory.add_to_history. -/
def evictAppend {α : Type _} (h : List α) (maxSize : Nat) (x : α) : List α :=
  let h' := h ++ [x]
  if h'.length > maxSize then h'.tail else h'

theorem evictAppend_length_le {α : Type _} (h : List α) (n : Nat) (x : α)
    (hle : h.length ≤ n) : (evictAppend h n x).length ≤ n := by
  unfold evictAppend
  by_cases hgt : (h ++ [x]).length > n
  · simp only [hgt, if_true]
    simpa using hle
  · simp only [hgt, if_false]
    omega

theorem evictAppend_full {α : Type _} (h : List α) (n : Nat) (x : α)
    (hlen : h.length = n) (hne : h ≠ []) : evictAppend h n x = h.tail ++ [x] := by
  unfold evictAppend
  have hgt : (h ++ [x]).length > n := by simp [hlen]
  simp only [hgt, if_true]
  cases h with
  | nil => exact absurd rfl hne
  | cons a t => simp

theorem mem_evictAppend_last {α : Type _} (h : List α) (n : Nat) (x : α)
    (hn : 0 < n) : x ∈ evictAppend h n x := by
  unfold evictAppend
  by_cases hgt : (h ++ [x]).length > n
  · simp only [hgt, if_true]
    cases h with
    | nil => simp at hgt; omega
    | cons a t => simp
  · simp only [hgt, if_false]
    simp

/-! ## EventBus (src/core/events.py)

An `Event` carries a dot-namespaced type and a string-valued data map
(the event uuid and timestamp are not modelled).  A subscriber callback may
observe the event and the bus history at delivery time, and either return
normally or raise; `publish` wraps each callback invocation in a
try/except, so a raising callback is caught and logged. -/

structure Event where
  type : String
  data : List (String × String)
deriving DecidableEq, Repr

/-- Outcome of one subscriber callback invocation: normal return, or a
raised exception carrying its message. -/
inductive CallbackResult where
  | ok
  | raises (msg : String)
deriving DecidableEq, Repr

/-- An EventSubscription: id, subscribed event type, and the callback.  The
callback receives the event and the bus history visible at delivery time. -/
structure EventSubscription where
  id : Nat
  event_type : String
  callback : Event → List Event → CallbackResult

structure EventBus where
  subscriptions : List (String × List EventSubscription)
  event_history : List Event
  max_history_size : Nat

/-- Fresh EventBus as built by `EventBus.__init__`. -/
def EventBus.init : EventBus := ⟨[], [], 100⟩

/-- Subscribers registered for one event type (`self.subscriptions.get(t, [])`). -/
def EventBus.getSubs (bus : EventBus) (t : String) : List EventSubscription :=
  (dictGet bus.subscriptions t).getD []

/-- Notification loop of `publish`: invoke each subscriber's callback in
order, catching and logging a raised exception.  Returns the delivery trace
(subscriber id paired with the history it observed) and the logged error
messages, in order. -/
def notifyAll : List EventSubscription → Event → List Event →
    List (Nat × List Event) × List String
  | [], _, _ => ([], [])
  | s :: rest, e, hist =>
      let logged : List String :=
        match s.callback e hist with
        | .ok => []
        | .raises m => [m]
      let r := notifyAll rest e hist
      ((s.id, hist) :: r.1, logged ++ r.2)

/-- EventBus.publish: append the event to the bounded history, then invoke
every subscriber for the event's exact type followed by every wildcard
subscriber, in subscription order.  Returns the updated bus, the delivery
trace and the logged callback errors. -/
def EventBus.publish (bus : EventBus) (e : Event) :
    EventBus × List (Nat × List Event) × List String :=
  let hist := evictAppend bus.event_history bus.max_history_size e
  let subscribers := bus.getSubs e.type
  let wildcard_subscribers := bus.getSubs "*"
  let all_subscribers := subscribers ++ wildcard_subscribers
  let r := notifyAll all_subscribers e hist
  ({ bus with event_history := hist }, r.1, r.2)

/-- EventBus.subscribe: create a subscription and append it to the bucket
for its event type (the subscription id is passed explicitly in place of a
generated uuid). -/
def EventBus.subscribe (bus : EventBus) (event_type : String) (sid : Nat)
    (callback : Event → List Event → CallbackResult) : EventBus × EventSubscription :=
  let sub : EventSubscription := ⟨sid, event_type, callback⟩
  let bucket := (dictGet bus.subscriptions event_type).getD []
  ({ bus with subscriptions := dictInsert bus.subscriptions event_type (bucket ++ [sub]) },
   sub)

theorem notifyAll_trace (subs : List EventSubscription) (e : Event) (hist : List Event) :
    (notifyAll subs e hist).1 = subs.map (fun s => (s.id, hist)) := by
  induction subs with
  | nil => simp [notifyAll]
  | cons s rest ih => simp [notifyAll, ih]

theorem notifyAll_logged_mem (subs : List EventSubscription) (e : Event) (hist : List Event)
    (s : EventSubscription) (m : String) (hs : s ∈ subs)
    (hr : s.callback e hist = .raises m) : m ∈ (notifyAll subs e hist).2 := by
  induction subs with
  | nil => simp at hs
  | cons hd rest ih =>
      rcases List.mem_cons.mp hs with heq | hmem
      · subst heq
        simp [notifyAll, hr]
      · simp only [notifyAll, List.mem_append]
        exact Or.inr (ih hmem)

/-! ## Agent execution contract (src/agents/base.py)

`AgentBehavior` packages the per-agent data the base-class wrappers read:
the metadata name, whether `check_dependencies` succeeds (all required
tools registered), whether the subclass defines `_execute_async`, and the
component logic `_execute` / `_execute_async` itself, modelled as a
function returning either a result string or a raised exception message.
`AgentState` is the mutable part: the `_dependencies_checked` flag and the
AgentMemory history. -/

/-- One AgentMemory history entry (timestamp not modelled). -/
inductive MemEntry where
  | run (input : String)
  | result (output : String)
  | error (err input : String)
deriving DecidableEq, Repr

/-- AgentMemory.add_to_history: append, keep at most 100 entries (FIFO). -/
def memAdd (h : List MemEntry) (e : MemEntry) : List MemEntry :=
  evictAppend h 100 e

structure AgentBehavior where
  name : String
  deps_ok : Bool
  hasExecAsync : Bool
  onExecute : String → Except String String
  onExecuteAsync : String → Except String String

structure AgentState where
  dependencies_checked : Bool
  memHistory : List MemEntry

/-- Agent.run: dependency gate, history record, `_execute`, history update;
any exception from `_execute` is caught and converted to a descriptive
error string.  Returns the result string and the updated agent state. -/
def AgentBehavior.run (a : AgentBehavior) (st : AgentState) (input : String) :
    String × AgentState :=
  if !st.dependencies_checked && !a.deps_ok then
    ("Error: Agent " ++ a.name ++ " is missing required dependencies", st)
  else
    let h1 := memAdd st.memHistory (.run input)
    match a.onExecute input with
    | .ok result => (result, ⟨true, memAdd h1 (.result result)⟩)
    | .error e =>
        ("Error in agent " ++ a.name ++ ": " ++ e, ⟨true, memAdd h1 (.error e input)⟩)

/-- Agent.run_async: same wrapper as `run`, but executes `_execute_async`
when the subclass defines it and otherwise falls back to running
`_execute` on a worker thread. -/
def AgentBehavior.runAsync (a : AgentBehavior) (st : AgentState) (input : String) :
    String × AgentState :=
  if !st.dependencies_checked && !a.deps_ok then
    ("Error: Agent " ++ a.name ++ " is missing required dependencies", st)
  else
    let h1 := memAdd st.memHistory (.run input)
    match (if a.hasExecAsync then a.onExecuteAsync input else a.onExecute input) with
    | .ok result => (result, ⟨true, memAdd h1 (.result result)⟩)
    | .error e =>
        ("Error in agent " ++ a.name ++ ": " ++ e, ⟨true, memAdd h1 (.error e input)⟩)

/-! ## Tool execution contract (src/tools/base.py)

Symmetric to agents, except that a raised exception is re-raised after the
execution record is updated to `failed` (the optional progress tracker is
an in-memory object handed to the component logic and is not modelled). -/

/-- One execution record of a tool (timestamps not modelled; the record id
stands for the generated execution uuid). -/
structure ExecutionRecord where
  id : Nat
  parameters : List (String × String)
  status : String
  result : Option String
  error : Option String
deriving DecidableEq, Repr

structure ToolBehavior where
  name : String
  hasExecAsync : Bool
  onExecute : List (String × String) → Except String String
  onExecuteAsync : List (String × String) → Except String String

structure ToolState where
  execution_history : List ExecutionRecord
  max_history_size : Nat

/-- Fresh tool state as built by `Tool.__init__`. -/
def ToolState.init : ToolState := ⟨[], 50⟩

/-- Tool._update_history_record: replace the first record with the given id. -/
def updateRecord : List ExecutionRecord → Nat → ExecutionRecord → List ExecutionRecord
  | [], _, _ => []
  | r :: rest, i, nr => if r.id = i then nr :: rest else r :: updateRecord rest i nr

/-- Tool.execute: open a `started` record, append it to the bounded
history, run `_execute`; on success close the record as `completed`, on
failure close it as `failed` and re-raise the exception. -/
def ToolBehavior.executeTool (t : ToolBehavior) (st : ToolState) (execution_id : Nat)
    (kwargs : List (String × String)) : Except String String × ToolState :=
  let record : ExecutionRecord := ⟨execution_id, kwargs, "started", none, none⟩
  let h1 := evictAppend st.execution_history st.max_history_size record
  match t.onExecute kwargs with
  | .ok result =>
      let record' : ExecutionRecord :=
        ⟨execution_id, kwargs, "completed", some result, none⟩
      (.ok result, { st with execution_history := updateRecord h1 execution_id record' })
  | .error e =>
      let record' : ExecutionRecord := ⟨execution_id, kwargs, "failed", none, some e⟩
      (.error e, { st with execution_history := updateRecord h1 execution_id record' })

/-- Tool.execute_async: same wrapper as `execute`, but executes
`_execute_async` when the subclass defines it and otherwise falls back to
running `_execute` on a worker thread. -/
def ToolBehavior.executeToolAsync (t : ToolBehavior) (st : ToolState) (execution_id : Nat)
    (kwargs : List (String × String)) : Except String String × ToolState :=
  let record : ExecutionRecord := ⟨execution_id, kwargs, "started", none, none⟩
  let h1 := evictAppend st.execution_history st.max_history_size record
  match (if t.hasExecAsync then t.onExecuteAsync kwargs else t.onExecute kwargs) with
  | .ok result =>
      let record' : ExecutionRecord :=
        ⟨execution_id, kwargs, "completed", some result, none⟩
      (.ok result, { st with execution_history := updateRecord h1 execution_id record' })
  | .error e =>
      let record' : ExecutionRecord := ⟨execution_id, kwargs, "failed", none, some e⟩
      (.error e, { st with execution_history := updateRecord h1 execution_id record' })

theorem updateRecord_length (l : List ExecutionRecord) (i : Nat) (r : ExecutionRecord) :
    (updateRecord l i r).length = l.length := by
  induction l with
  | nil => simp [updateRecord]
  | cons hd tl ih =>
      by_cases h : hd.id = i
      · simp [updateRecord, h]
      · simp [updateRecord, h, ih]

theorem updateRecord_mem (l : List ExecutionRecord) (i : Nat) (r nr : ExecutionRecord)
    (hmem : r ∈ l) (hid : r.id = i) : nr ∈ updateRecord l i nr := by
  induction l with
  | nil => simp at hmem
  | cons hd tl ih =>
      by_cases h : hd.id = i
      · simp [updateRecord, h]
      · rcases List.mem_cons.mp hmem with heq | hm
        · subst heq
          exact absurd hid h
        · simp only [updateRecord, h, if_false, List.mem_cons]
          exact Or.inr (ih hm)

/-! ## Registry (src/core/registry.py)

An insertion-ordered table `components : id → entry` plus a category index
`categories : category → (name → id)`, and the legacy flat `agents` /
`tools` name→component views kept for backward compatibility.  Generated
uuids appear as an explicit `component_id` argument. -/

structure RegistryEntry (α : Type _) where
  id : String
  component : α
  category : String

structure Registry (α : Type _) where
  components : List (String × RegistryEntry α)
  categories : List (String × List (String × String))
  agents : List (String × α)
  tools : List (String × α)

/-- Fresh empty registry as built by `Registry.__init__`. -/
def Registry.empty {α : Type _} : Registry α := ⟨[], [], [], []⟩

/-- Registry.register: store the entry under its id, point the
`(category, name)` index at the new id, and refresh the legacy flat view. -/
def Registry.register {α : Type _} (r : Registry α) (category name : String)
    (component : α) (component_id : String) : Registry α × String :=
  let entry : RegistryEntry α := ⟨component_id, component, category⟩
  let comps := dictInsert r.components component_id entry
  let catMap := (dictGet r.categories category).getD []
  let cats := dictInsert r.categories category (dictInsert catMap name component_id)
  let agents' := if category = "agent" then dictInsert r.agents name component else r.agents
  let tools' := if category = "tool" then dictInsert r.tools name component else r.tools
  (⟨comps, cats, agents', tools'⟩, component_id)

/-- Registry.get: component by id, `none` when unknown. -/
def Registry.get {α : Type _} (r : Registry α) (component_id : String) : Option α :=
  match dictGet r.components component_id with
  | some entry => some entry.component
  | none => none

/-- Registry.get_by_name: resolve `(category, name)` through the category
index, then fetch the component by id. -/
def Registry.getByName {α : Type _} (r : Registry α) (category name : String) : Option α :=
  match dictGet r.categories category with
  | none => none
  | some catMap =>
      match dictGet catMap name with
      | none => none
      | some component_id => r.get component_id

/-! ## Command tokenisation

`str.split(maxsplit=1)` / `str.split(maxsplit=2)` used by the Controller's
router, and the `parse_kwargs` helper (src/utils/helpers.py) with its
shlex-based tokenisation. -/

/-- Whitespace recognised by Python's `str.split()`. -/
def isSpace (c : Char) : Bool :=
  c = ' ' || c = '\t' || c = '\n' || c = '\r'

/-- Python `str.lower()`: lower-case every character (ASCII case folding
suffices for the command names the Controller lowers). -/
def pyLower (s : String) : String :=
  ⟨s.data.map Char.toLower⟩

/-- Python `s.split(maxsplit=1)`: skip leading whitespace, take the first
whitespace-delimited token, then return the rest of the string (leading
separator whitespace removed, trailing text verbatim) as the final element
when it is non-empty. -/
def pySplit1 (s : String) : List String :=
  let cs := s.toList.dropWhile isSpace
  if cs.isEmpty then []
  else
    let tok := cs.takeWhile (fun c => !isSpace c)
    let rest := (cs.dropWhile (fun c => !isSpace c)).dropWhile isSpace
    if rest.isEmpty then [tok.asString] else [tok.asString, rest.asString]

/-- Python `s.split(maxsplit=2)`. -/
def pySplit2 (s : String) : List String :=
  let cs := s.toList.dropWhile isSpace
  if cs.isEmpty then []
  else
    let tok := cs.takeWhile (fun c => !isSpace c)
    let rest := (cs.dropWhile (fun c => !isSpace c)).dropWhile isSpace
    if rest.isEmpty then [tok.asString]
    else
      let tok2 := rest.takeWhile (fun c => !isSpace c)
      let rest2 := (rest.dropWhile (fun c => !isSpace c)).dropWhile isSpace
      if rest2.isEmpty then [tok.asString, tok2.asString]
      else [tok.asString, tok2.asString, rest2.asString]

/-- Modelled from the spec: `shlex.split` (Python standard library, not in
src/) as used by `parse_kwargs` — whitespace-separated tokens where a
quoted segment (`"..."` or `'...'`) is part of a single token with the
quotes stripped, and an unclosed quote raises an exception
("No closing quotation"). -/
def shlexAux (quote : Option Char) (input : List Char) (cur : Option (List Char))
    (acc : List (List Char)) : Except String (List (List Char)) :=
  match input with
  | [] =>
      match quote with
      | some _ => .error "No closing quotation"
      | none =>
          match cur with
          | none => .ok acc.reverse
          | some t => .ok (t.reverse :: acc).reverse
  | c :: rest =>
      match quote with
      | some q =>
          if c = q then shlexAux none rest (some (cur.getD [])) acc
          else shlexAux (some q) rest (some (c :: cur.getD [])) acc
      | none =>
          if isSpace c then
            match cur with
            | none => shlexAux none rest none acc
            | some t => shlexAux none rest none (t.reverse :: acc)
          else if c = '"' || c = '\'' then shlexAux (some c) rest cur acc
          else shlexAux none rest (some (c :: cur.getD [])) acc

/-- Modelled from the spec: tokenisation entry point of `shlex.split`. -/
def shlexSplit (s : String) : Except String (List String) :=
  (shlexAux none s.toList none []).map (fun ts => ts.map List.asString)

/-- Value cleanup in `parse_kwargs`: the regex `^["\']|["\']$` strips one
leading and one trailing quote character (double or single), replacing the
leftmost match first. -/
def stripQuotes (v : String) : String :=
  let cs := v.toList
  let cs1 :=
    match cs with
    | c :: rest => if c = '"' || c = '\'' then rest else cs
    | [] => []
  let cs2 :=
    match cs1.reverse with
    | c :: rest => if c = '"' || c = '\'' then rest.reverse else cs1
    | [] => cs1
  cs2.asString

/-- Split a token at its first `=` (`token.split('=', 1)`); `none` when the
token contains no `=`. -/
def splitEq : List Char → Option (List Char × List Char)
  | [] => none
  | c :: rest =>
      if c = '=' then some ([], rest)
      else (splitEq rest).map (fun p => (c :: p.1, p.2))

/-- parse_kwargs (src/utils/helpers.py): shlex-tokenise the argument
string and collect every `key=value` token into a dictionary, stripping
surrounding quotes from values; tokens without `=` are ignored. -/
def parseKwargs (arg_string : String) : Except String (List (String × String)) :=
  match shlexSplit arg_string with
  | .error e => .error e
  | .ok tokens =>
      .ok (tokens.foldl (fun acc token =>
        match splitEq token.toList with
        | none => acc
        | some p => dictInsert acc p.1.asString (stripQuotes p.2.asString)) [])

/-! ## Controller (src/core/controller.py)

The request context handed to middleware, the session history, the
middleware pipeline and `process_command` / `_route_command`.  A
middleware is a function from the context to the mutated context together
with an optional raised-exception message.  The registry holds agents and
tools as `Component` values; the Python objects being mutated in place is
modelled by writing the updated component state back into the registry. -/

/-- Mutable request context `{command, args, session, response, error}`
built at the top of `process_command` (the session reference itself is not
part of the modelled context). -/
structure Ctx where
  command : String
  args : String
  response : Option String
  error : Option String
deriving DecidableEq, Repr

/-- Fresh request context for one `process_command` call. -/
def initCtx (command args : String) : Ctx :=
  ⟨command, args, none, none⟩

/-- One session-history entry `{command, args, response, error}`
(timestamp not modelled). -/
structure SessionEntry where
  command : String
  args : String
  response : Option String
  error : Option String
deriving DecidableEq, Repr

/-- A middleware: receives the context, returns the mutated context and
the message of a raised exception, if any. -/
def Middleware : Type := Ctx → Ctx × Option String

/-- A component held by the Controller's registry: an agent or a tool,
each paired with its current mutable state. -/
inductive Component where
  | agent (behavior : AgentBehavior) (state : AgentState)
  | tool (behavior : ToolBehavior) (state : ToolState)

structure ControllerState where
  registry : Registry Component
  bus : EventBus
  sessionHistory : List SessionEntry
  middleware : List Middleware
  uuidCounter : Nat

/-- Publish an event, keeping only the updated bus (the Controller ignores
the delivery trace). -/
def publishEv (bus : EventBus) (e : Event) : EventBus :=
  (bus.publish e).1

/-- The middleware loop of `process_command`: run each middleware in
registration order; stop early when one raises (the exception propagates
to the surrounding try) or when the context's `error` becomes truthy. -/
def runPipeline : List Middleware → Ctx → Ctx × Option String
  | [], ctx => (ctx, none)
  | m :: rest, ctx =>
      match m ctx with
      | (ctx', some e) => (ctx', some e)
      | (ctx', none) =>
          if truthyStr ctx'.error then (ctx', none) else runPipeline rest ctx'

/-- Write the mutated state of the component registered under
`(category, name)` back into the registry (Python mutates the shared
object in place). -/
def updateComponent (r : Registry Component) (category name : String) (c : Component) :
    Registry Component :=
  match dictGet r.categories category with
  | none => r
  | some catMap =>
      match dictGet catMap name with
      | none => r
      | some cid =>
          match dictGet r.components cid with
          | none => r
          | some entry =>
              { r with components :=
                  dictInsert r.components cid ⟨entry.id, c, entry.category⟩ }

/-- Effective keyword arguments for a tool call: fall back to a single
`raw_input` argument when no `key=value` pair parsed and the raw argument
string is non-empty (Controller lines 179-183). -/
def effectiveKwargs (tool_args : String) (kw0 : List (String × String)) :
    List (String × String) :=
  if kw0.isEmpty && !(tool_args = "") then [("raw_input", tool_args)] else kw0

/-- Controller._route_command: dispatch `run <agent> <rest>` and
`use tool <tool> <rest>`, publishing before/after/error events around the
component call; any raised exception is re-raised after its error event.
Returns the result (or raised exception), the updated bus, the updated
registry and the updated uuid counter. -/
def routeCommand (cs : ControllerState) (command args : String) :
    Except String String × EventBus × Registry Component × Nat :=
  if command = "run" then
    match pySplit1 args with
    | [] => (.ok "Usage: run <agent> <args>", cs.bus, cs.registry, cs.uuidCounter)
    | p0 :: rest =>
        let agent_name := pyLower p0
        let agent_args := rest.headD ""
        match cs.registry.getByName "agent" agent_name with
        | none =>
            (.ok ("Unknown agent: " ++ agent_name), cs.bus, cs.registry, cs.uuidCounter)
        | some comp =>
            let bus1 := publishEv cs.bus
              ⟨"agent.before_run", [("agent", agent_name), ("args", agent_args)]⟩
            match comp with
            | .agent a ast =>
                let r := a.runAsync ast agent_args
                let bus2 := publishEv bus1
                  ⟨"agent.after_run",
                   [("agent", agent_name), ("args", agent_args), ("result", r.1)]⟩
                (.ok r.1, bus2,
                 updateComponent cs.registry "agent" agent_name (.agent a r.2),
                 cs.uuidCounter)
            | .tool _ _ =>
                let e := "AttributeError"
                let bus2 := publishEv bus1
                  ⟨"agent.error",
                   [("agent", agent_name), ("args", agent_args), ("error", e)]⟩
                (.error e, bus2, cs.registry, cs.uuidCounter)
  else if command = "use" then
    let parts := pySplit2 args
    if parts.length < 2 ∨ parts.headD "" ≠ "tool" then
      (.ok "Usage: use tool <toolname> <args>", cs.bus, cs.registry, cs.uuidCounter)
    else
      let tool_name := pyLower ((parts.drop 1).headD "")
      let tool_args := (parts.drop 2).headD ""
      match cs.registry.getByName "tool" tool_name with
      | none =>
          (.ok ("Unknown tool: " ++ tool_name), cs.bus, cs.registry, cs.uuidCounter)
      | some comp =>
          let bus1 := publishEv cs.bus
            ⟨"tool.before_use", [("tool", tool_name), ("args", tool_args)]⟩
          match parseKwargs tool_args with
          | .error e =>
              let bus2 := publishEv bus1
                ⟨"tool.error",
                 [("tool", tool_name), ("args", tool_args), ("error", e)]⟩
              (.error e, bus2, cs.registry, cs.uuidCounter)
          | .ok kw0 =>
              let kwargs := effectiveKwargs tool_args kw0
              match comp with
              | .tool t tst =>
                  let r := t.executeToolAsync tst cs.uuidCounter kwargs
                  match r.1 with
                  | .ok result =>
                      let bus2 := publishEv bus1
                        ⟨"tool.after_use",
                         [("tool", tool_name), ("args", tool_args), ("result", result)]⟩
                      (.ok result, bus2,
                       updateComponent cs.registry "tool" tool_name (.tool t r.2),
                       cs.uuidCounter + 1)
                  | .error e =>
                      let bus2 := publishEv bus1
                        ⟨"tool.error",
                         [("tool", tool_name), ("args", tool_args), ("error", e)]⟩
                      (.error e, bus2,
                       updateComponent cs.registry "tool" tool_name (.tool t r.2),
                       cs.uuidCounter + 1)
              | .agent _ _ =>
                  let e := "AttributeError"
                  let bus2 := publishEv bus1
                    ⟨"tool.error",
                     [("tool", tool_name), ("args", tool_args), ("error", e)]⟩
                  (.error e, bus2, cs.registry, cs.uuidCounter)
  else
    (.ok ("Unknown command: " ++ command), cs.bus, cs.registry, cs.uuidCounter)

/-- Body of `process_command` up to (but excluding) the session-history
append and the final result selection: middleware pipeline, routing, and
the catch-all that turns a raised exception into the context's error plus
a published `error` event.  Returns the final context and the updated
controller state. -/
def processCore (cs : ControllerState) (command args : String) : Ctx × ControllerState :=
  match runPipeline cs.middleware (initCtx command args) with
  | (ctx1, some e) =>
      let bus' := publishEv cs.bus
        ⟨"error", [("message", e), ("command", command), ("args", args)]⟩
      ({ ctx1 with error := some e }, { cs with bus := bus' })
  | (ctx1, none) =>
      if !truthyStr ctx1.response && !truthyStr ctx1.error then
        match routeCommand cs command args with
        | (.ok r, b, reg, n) =>
            ({ ctx1 with response := some r },
             { cs with bus := b, registry := reg, uuidCounter := n })
        | (.error e, b, reg, n) =>
            let bus' := publishEv b
              ⟨"error", [("message", e), ("command", command), ("args", args)]⟩
            ({ ctx1 with error := some e },
             { cs with bus := bus', registry := reg, uuidCounter := n })
      else (ctx1, cs)

/-- Controller.process_command: run the core, append exactly one entry to
the current session's history, and return the response when it is truthy,
otherwise the formatted error string. -/
def processCommand (cs : ControllerState) (command args : String) :
    String × ControllerState :=
  let r := processCore cs command args
  let cs2 := { r.2 with sessionHistory :=
    r.2.sessionHistory ++ [⟨command, args, r.1.response, r.1.error⟩] }
  ((if truthyStr r.1.response then r.1.response.getD ""
    else "Error: " ++ pyStr r.1.error), cs2)

/-! ## Claim theorems -/

/-- C7: `EventBus.publish` appends the event to the bounded history and
then invokes every subscriber registered for the event's exact type plus
every subscriber registered for the wildcard type `*`, in subscription
order; the callbacks run sequentially inside the publish call, each
observing the already-appended history. -/
theorem publish_order_and_history (bus : EventBus) (e : Event) :
    (bus.publish e).1.event_history
        = evictAppend bus.event_history bus.max_history_size e
    ∧ (bus.publish e).2.1
        = (bus.getSubs e.type ++ bus.getSubs "*").map
            (fun s => (s.id, evictAppend bus.event_history bus.max_history_size e)) := by
  refine ⟨rfl, ?_⟩
  simp [EventBus.publish, notifyAll_trace]

/-- C3: a subscriber callback that raises during `EventBus.publish` is
caught and logged; every subscriber (including those after the raising
one) is still invoked in order, nothing propagates to the publisher, and
the published event is still recorded in the history. -/
theorem publish_isolates_subscriber_exceptions (bus : EventBus) (e : Event)
    (s : EventSubscription) (m : String)
    (hs : s ∈ bus.getSubs e.type ++ bus.getSubs "*")
    (hr : s.callback e (evictAppend bus.event_history bus.max_history_size e)
            = .raises m) :
    (bus.publish e).2.1
        = (bus.getSubs e.type ++ bus.getSubs "*").map
            (fun s => (s.id, evictAppend bus.event_history bus.max_history_size e))
    ∧ m ∈ (bus.publish e).2.2
    ∧ (bus.publish e).1.event_history
        = evictAppend bus.event_history bus.max_history_size e := by
  refine ⟨?_, ?_, rfl⟩
  · simp [EventBus.publish, notifyAll_trace]
  · simpa [EventBus.publish] using
      notifyAll_logged_mem (bus.getSubs e.type ++ bus.getSubs "*") e
        (evictAppend bus.event_history bus.max_history_size e) s m hs hr

/-- Callback that always raises "boom"; used to witness subscriber
isolation. -/
def cbRaise : Event → List Event → CallbackResult := fun _ _ => .raises "boom"

/-- Callback that always returns normally. -/
def cbOk : Event → List Event → CallbackResult := fun _ _ => .ok

def subRaise : EventSubscription := ⟨1, "error", cbRaise⟩

def subOk : EventSubscription := ⟨2, "error", cbOk⟩

/-- Bus with a raising subscriber followed by a well-behaved one. -/
def busW3 : EventBus := ⟨[("error", [subRaise, subOk])], [], 100⟩

def evW3 : Event := ⟨"error", []⟩

theorem publish_isolates_witness :
    (busW3.publish evW3).2.1
        = (busW3.getSubs evW3.type ++ busW3.getSubs "*").map
            (fun s => (s.id, evictAppend busW3.event_history busW3.max_history_size evW3))
    ∧ "boom" ∈ (busW3.publish evW3).2.2
    ∧ (busW3.publish evW3).1.event_history
        = evictAppend busW3.event_history busW3.max_history_size evW3 :=
  publish_isolates_subscriber_exceptions busW3 evW3 subRaise "boom"
    (by simp [busW3, evW3, EventBus.getSubs, dictGet]) rfl

/-- C5: `get_by_name` resolves a registered `(category, name)` pair to the
component most recently registered under it; re-registering the pair
overwrites only the name→id mapping, so the old component stays reachable
through id-based lookup. -/
theorem register_lookup (α : Type) (r : Registry α) (cat name : String) (c1 c2 : α)
    (id1 id2 : String) (hne : id1 ≠ id2) :
    ((r.register cat name c1 id1).1.getByName cat name = some c1)
    ∧ (((r.register cat name c1 id1).1.register cat name c2 id2).1.getByName cat name
        = some c2)
    ∧ (((r.register cat name c1 id1).1.register cat name c2 id2).1.get id1 = some c1) := by
  refine ⟨?_, ?_, ?_⟩
  · simp [Registry.register, Registry.getByName, Registry.get, dictGet_insert_self]
  · simp [Registry.register, Registry.getByName, Registry.get, dictGet_insert_self]
  · simp [Registry.register, Registry.get, dictGet_insert_self,
      dictGet_insert_ne, Ne.symm hne]

theorem register_lookup_witness :
    (((Registry.empty : Registry Nat).register "agent" "code" 1 "id1").1.getByName
        "agent" "code" = some 1)
    ∧ ((((Registry.empty : Registry Nat).register "agent" "code" 1 "id1").1.register
        "agent" "code" 2 "id2").1.getByName "agent" "code" = some 2)
    ∧ ((((Registry.empty : Registry Nat).register "agent" "code" 1 "id1").1.register
        "agent" "code" 2 "id2").1.get "id1" = some 1) :=
  register_lookup Nat Registry.empty "agent" "code" 1 2 "id1" "id2" (by decide)

/-- C9: for an agent that provides only the blocking implementation
(`_execute`, no `_execute_async`), `run_async` produces exactly the same
result string and the same state as `run`, for every input — the
worker-thread fallback is invisible to the caller. -/
theorem runAsync_eq_run (a : AgentBehavior) (st : AgentState) (input : String)
    (h : a.hasExecAsync = false) : a.runAsync st input = a.run st input := by
  simp [AgentBehavior.run, AgentBehavior.runAsync, h]

/-- Blocking-only agent used to witness the async fallback. -/
def agentW9 : AgentBehavior :=
  ⟨"code", true, false, fun s => .ok ("echo " ++ s), fun _ => .error "unused"⟩

theorem runAsync_eq_run_witness :
    agentW9.runAsync ⟨false, []⟩ "hi" = agentW9.run ⟨false, []⟩ "hi" :=
  runAsync_eq_run agentW9 ⟨false, []⟩ "hi" rfl

theorem publish_max (bus : EventBus) (e : Event) :
    (bus.publish e).1.max_history_size = bus.max_history_size := rfl

theorem publish_history_len (bus : EventBus) (e : Event)
    (h : bus.event_history.length ≤ bus.max_history_size) :
    (bus.publish e).1.event_history.length ≤ bus.max_history_size := by
  simpa [EventBus.publish] using
    evictAppend_length_le bus.event_history bus.max_history_size e h

theorem executeToolAsync_state (t : ToolBehavior) (s : ToolState) (i : Nat)
    (kw : List (String × String)) :
    ((t.executeToolAsync s i kw).2.max_history_size = s.max_history_size)
    ∧ ((t.executeToolAsync s i kw).2.execution_history.length
        = (evictAppend s.execution_history s.max_history_size
            (⟨i, kw, "started", none, none⟩ : ExecutionRecord)).length) := by
  rcases hx : (if t.hasExecAsync then t.onExecuteAsync kw else t.onExecute kw) with e | r <;>
    simp [ToolBehavior.executeToolAsync, hx, updateRecord_length]

theorem run_memHistory_bound (a : AgentBehavior) (st : AgentState) (input : String)
    (h : st.memHistory.length ≤ 100) :
    (a.run st input).2.memHistory.length ≤ 100 := by
  unfold AgentBehavior.run
  by_cases hd : (!st.dependencies_checked && !a.deps_ok) = true
  · simpa [hd] using h
  · rcases hx : a.onExecute input with e | r <;>
      simp only [Bool.not_eq_true] at hd <;>
      simp [hd, hx, memAdd] <;>
      exact evictAppend_length_le _ 100 _ (evictAppend_length_le _ 100 _ h)

/-- C6: bounded histories.  After any sequence of publishes the EventBus
history holds at most 100 events; after any sequence of tool executions
the execution history holds at most `max_history_size` (50) records; after
any sequence of agent runs the agent memory holds at most 100 entries; and
when an append would exceed the bound the oldest (head) entry is evicted
first. -/
theorem bounded_histories :
    (∀ (es : List Event) (bus : EventBus),
        bus.max_history_size = 100 → bus.event_history.length ≤ 100 →
        ((es.foldl (fun b e => (EventBus.publish b e).1) bus).event_history.length ≤ 100))
    ∧ (∀ (bus : EventBus) (e : Event),
        bus.max_history_size = 100 → bus.event_history.length = 100 →
        (bus.publish e).1.event_history = bus.event_history.tail ++ [e])
    ∧ (∀ (t : ToolBehavior) (calls : List (Nat × List (String × String))) (tst : ToolState),
        tst.max_history_size = 50 → tst.execution_history.length ≤ 50 →
        (ToolState.execution_history
          (calls.foldl (fun s c => (t.executeToolAsync s c.1 c.2).2) tst)).length ≤ 50)
    ∧ (∀ (tst : ToolState) (r : ExecutionRecord),
        tst.max_history_size = 50 → tst.execution_history.length = 50 →
        evictAppend tst.execution_history tst.max_history_size r
          = tst.execution_history.tail ++ [r])
    ∧ (∀ (a : AgentBehavior) (inputs : List String) (st : AgentState),
        st.memHistory.length ≤ 100 →
        ((inputs.foldl (fun s i => (a.run s i).2) st).memHistory.length ≤ 100))
    ∧ (∀ (h : List MemEntry) (e : MemEntry),
        h.length = 100 → memAdd h e = h.tail ++ [e]) := by
  refine ⟨?_, ?_, ?_, ?_, ?_, ?_⟩
  · intro es
    induction es with
    | nil => intro bus hm hl; simpa using hl
    | cons e rest ih =>
        intro bus hm hl
        simp only [List.foldl_cons]
        refine ih _ ?_ ?_
        · simpa [publish_max] using hm
        · have := publish_history_len bus e (by omega)
          omega
  · intro bus e hm hl
    have hne : bus.event_history ≠ [] :=
      List.length_pos.mp (by omega)
    have : (bus.publish e).1.event_history
        = evictAppend bus.event_history bus.max_history_size e := rfl
    rw [this, evictAppend_full _ _ _ (by omega) hne]
  · intro t calls
    induction calls with
    | nil => intro tst hm hl; simpa using hl
    | cons c rest ih =>
        intro tst hm hl
        simp only [List.foldl_cons]
        refine ih _ ?_ ?_
        · rw [(executeToolAsync_state t tst c.1 c.2).1, hm]
        · rw [(executeToolAsync_state t tst c.1 c.2).2]
          have := evictAppend_length_le tst.execution_history tst.max_history_size
            (⟨c.1, c.2, "started", none, none⟩ : ExecutionRecord) (by omega)
          omega
  · intro tst r hm hl
    exact evictAppend_full _ _ _ (by omega)
      (List.length_pos.mp (by omega))
  · intro a inputs
    induction inputs with
    | nil => intro st hl; simpa using hl
    | cons i rest ih =>
        intro st hl
        simp only [List.foldl_cons]
        exact ih _ (run_memHistory_bound a st i hl)
  · intro h e hl
    exact evictAppend_full _ _ _ hl (List.length_pos.mp (by omega))

theorem bounded_histories_witness :
    ((([⟨"a", []⟩, ⟨"b", []⟩] : List Event).foldl
        (fun b e => (EventBus.publish b e).1) EventBus.init).event_history.length ≤ 100)
    ∧ (memAdd (List.replicate 100 (MemEntry.run "x")) (.result "y")
        = (List.replicate 100 (MemEntry.run "x")).tail ++ [.result "y"]) :=
  ⟨bounded_histories.1 _ EventBus.init rfl (by simp [EventBus.init]),
   bounded_histories.2.2.2.2.2 _ _ (by simp)⟩

theorem processCore_sessionHistory (cs : ControllerState) (command args : String) :
    (processCore cs command args).2.sessionHistory = cs.sessionHistory := by
  unfold processCore
  split
  · rfl
  · split
    · split <;> rfl
    · rfl

/-- C1: `process_command` never raises: a middleware or routing exception
is caught, stored as the context's error and published as an `error`
event; exactly one entry `{command, args, response, error}` is appended to
the session history regardless of outcome; and the returned string is the
response when one was produced (truthy), otherwise the formatted error
string. -/
theorem processCommand_contract (cs : ControllerState) (command args : String) :
    ((processCommand cs command args).2.sessionHistory
        = cs.sessionHistory
          ++ [⟨command, args, (processCore cs command args).1.response,
               (processCore cs command args).1.error⟩])
    ∧ ((processCommand cs command args).1
        = (if truthyStr (processCore cs command args).1.response then
             (processCore cs command args).1.response.getD ""
           else "Error: " ++ pyStr (processCore cs command args).1.error))
    ∧ (∀ (c : Ctx) (e : String),
        runPipeline cs.middleware (initCtx command args) = (c, some e) →
        (processCore cs command args).1.error = some e
        ∧ (processCore cs command args).2.bus
            = publishEv cs.bus
                ⟨"error", [("message", e), ("command", command), ("args", args)]⟩)
    ∧ (∀ (c : Ctx) (e : String),
        runPipeline cs.middleware (initCtx command args) = (c, none) →
        truthyStr c.response = false → truthyStr c.error = false →
        (routeCommand cs command args).1 = .error e →
        (processCore cs command args).1.error = some e
        ∧ (processCore cs command args).2.bus
            = publishEv (routeCommand cs command args).2.1
                ⟨"error", [("message", e), ("command", command), ("args", args)]⟩) := by
  refine ⟨?_, rfl, ?_, ?_⟩
  · show ((processCore cs command args).2.sessionHistory ++ _) = _
    rw [processCore_sessionHistory]
  · intro c e hp
    constructor <;> simp [processCore, hp]
  · intro c e hp hresp herr hroute
    rcases hr : routeCommand cs command args with ⟨res, b, reg, n⟩
    rw [hr] at hroute
    simp only at hroute
    subst hroute
    constructor <;> simp [processCore, hp, hresp, herr, hr]

/-- Middleware that raises; used to witness the exception path of
`process_command`. -/
def mwRaise : Middleware := fun ctx => (ctx, some "boom")

def csW1 : ControllerState := ⟨Registry.empty, EventBus.init, [], [mwRaise], 0⟩

theorem processCommand_contract_witness :
    ((processCommand csW1 "go" "x").2.sessionHistory
        = csW1.sessionHistory
          ++ [⟨"go", "x", (processCore csW1 "go" "x").1.response,
               (processCore csW1 "go" "x").1.error⟩])
    ∧ (processCore csW1 "go" "x").1.error = some "boom"
    ∧ (processCore csW1 "go" "x").2.bus
        = publishEv csW1.bus
            ⟨"error", [("message", "boom"), ("command", "go"), ("args", "x")]⟩ :=
  ⟨(processCommand_contract csW1 "go" "x").1,
   ((processCommand_contract csW1 "go" "x").2.2.1 (initCtx "go" "x") "boom" rfl).1,
   ((processCommand_contract csW1 "go" "x").2.2.1 (initCtx "go" "x") "boom" rfl).2⟩

/-- Middleware that sets the response to "a". -/
def mwSetRespA : Middleware := fun ctx => ({ ctx with response := some "a" }, none)

/-- Middleware that sets the response to "b". -/
def mwSetRespB : Middleware := fun ctx => ({ ctx with response := some "b" }, none)

/-- C2 counterexample: a middleware that sets `response` does NOT stop the
remaining middleware — with a pipeline `[set "a", set "b"]` the second
middleware still runs and overwrites the response, so the pipeline result
differs from what running only the first middleware produces. -/
theorem middleware_response_no_shortcircuit_cex :
    (runPipeline [mwSetRespA, mwSetRespB] (initCtx "go" "")).1.response = some "b"
    ∧ (runPipeline [mwSetRespA] (initCtx "go" "")).1.response = some "a" := by
  constructor <;> rfl

/-- C2 amended: middleware run in registration order; a middleware that
sets a truthy `error` stops the remaining middleware, and the router is
never reached (context and controller state are returned unchanged) when
the pipeline ends with a truthy `response` or `error`; a middleware that
sets `response` does not stop the remaining middleware. -/
theorem middleware_pipeline_amended :
    (∀ (pre post : List Middleware) (m : Middleware) (ctx c c' : Ctx),
        runPipeline pre ctx = (c, none) → truthyStr c.error = false →
        m c = (c', none) → truthyStr c'.error = true →
        runPipeline (pre ++ m :: post) ctx = (c', none))
    ∧ (∀ (cs : ControllerState) (command args : String) (c : Ctx),
        runPipeline cs.middleware (initCtx command args) = (c, none) →
        (truthyStr c.response = true ∨ truthyStr c.error = true) →
        processCore cs command args = (c, cs)) := by
  constructor
  · intro pre post m ctx c c' hpre herr hm herr'
    induction pre generalizing ctx with
    | nil =>
        simp only [runPipeline] at hpre
        injection hpre with h1 h2
        subst h1
        simp [runPipeline, hm, herr']
    | cons p rest ih =>
        rcases hpc : p ctx with ⟨c0, exn0⟩
        simp only [List.cons_append, runPipeline, hpc] at hpre ⊢
        cases exn0 with
        | some e0 => simp at hpre
        | none =>
            by_cases h0 : truthyStr c0.error = true
            · simp only [h0, if_true] at hpre
              injection hpre with h1 h2
              subst h1
              rw [herr] at h0
              cases h0
            · simp only [h0, if_false] at hpre ⊢
              exact ih c0 hpre
  · intro cs command args c hp hor
    have hcond : (!truthyStr c.response && !truthyStr c.error) = false := by
      rcases hor with h | h <;> simp [h]
    simp [processCore, hp, hcond]

/-- Middleware that sets a truthy error; used to witness the error
short-circuit. -/
def mwSetErr : Middleware := fun ctx => ({ ctx with error := some "denied" }, none)

def csW2 : ControllerState := ⟨Registry.empty, EventBus.init, [], [mwSetErr], 0⟩

theorem middleware_pipeline_amended_witness :
    (runPipeline ([] ++ mwSetErr :: [mwSetRespB]) (initCtx "go" "")
        = (⟨"go", "", none, some "denied"⟩, none))
    ∧ processCore csW2 "go" "" = (⟨"go", "", none, some "denied"⟩, csW2) :=
  ⟨middleware_pipeline_amended.1 [] [mwSetRespB] mwSetErr (initCtx "go" "")
      (initCtx "go" "") ⟨"go", "", none, some "denied"⟩ rfl rfl rfl rfl,
   middleware_pipeline_amended.2 csW2 "go" "" ⟨"go", "", none, some "denied"⟩ rfl
      (Or.inr rfl)⟩

theorem unknown_prefix_ne_empty (s : String) : ("Unknown agent: " ++ s) ≠ "" := by
  intro h
  have hlen := congrArg String.length h
  rw [String.length_append] at hlen
  have h15 : ("Unknown agent: " : String).length = 15 := rfl
  have h0 : ("" : String).length = 0 := rfl
  omega

/-- C8: a `run` command naming an unregistered agent returns the plain
response "Unknown agent: <name>" and publishes no event at all — in
particular neither `agent.before_run` nor `agent.after_run`. -/
theorem unknown_agent (cs : ControllerState) (args name : String) (rest : List String)
    (hmw : cs.middleware = [])
    (hsplit : pySplit1 args = name :: rest)
    (hagent : cs.registry.getByName "agent" (pyLower name) = none) :
    (processCommand cs "run" args).1 = "Unknown agent: " ++ (pyLower name)
    ∧ (processCommand cs "run" args).2.bus = cs.bus := by
  have hroute : routeCommand cs "run" args
      = (.ok ("Unknown agent: " ++ (pyLower name)), cs.bus, cs.registry, cs.uuidCounter) := by
    simp [routeCommand, hsplit, hagent]
  have hcore : processCore cs "run" args
      = ({ initCtx "run" args with
            response := some ("Unknown agent: " ++ (pyLower name)) }, cs) := by
    simp [processCore, hmw, runPipeline, initCtx, truthyStr, hroute]
    rw [← hmw]
  have hne := unknown_prefix_ne_empty (pyLower name)
  constructor
  · simp [processCommand, hcore, truthyStr, initCtx, hne]
  · simp [processCommand, hcore]

def csW8 : ControllerState := ⟨Registry.empty, EventBus.init, [], [], 0⟩

theorem unknown_agent_witness :
    (processCommand csW8 "run" "missingagent x").1
        = "Unknown agent: " ++ pyLower "missingagent"
    ∧ (processCommand csW8 "run" "missingagent x").2.bus = csW8.bus :=
  unknown_agent csW8 "missingagent x" "missingagent" ["x"] rfl rfl rfl

/-- C10: when the pipeline and routing leave a falsy response (None or the
empty string) and no error, `process_command` returns the literal string
"Error: None" — an empty successful response surfaces as an error report. -/
theorem empty_response_error_none (cs : ControllerState) (command args : String)
    (hresp : truthyStr (processCore cs command args).1.response = false)
    (herr : (processCore cs command args).1.error = none) :
    (processCommand cs command args).1 = "Error: None" := by
  rcases hc : processCore cs command args with ⟨ctx2, cs1⟩
  rw [hc] at hresp herr
  simp only at hresp herr
  simp [processCommand, hc, hresp, herr, pyStr]

/-- Agent whose logic returns the empty string; witnesses the falsy
response path. -/
def agentW10 : AgentBehavior :=
  ⟨"empty", true, false, fun _ => .ok "", fun _ => .error "unused"⟩

def csW10 : ControllerState :=
  ⟨(Registry.empty.register "agent" "e" (Component.agent agentW10 ⟨false, []⟩) "id-e").1,
   EventBus.init, [], [], 0⟩

theorem empty_response_witness :
    (processCommand csW10 "run" "e").1 = "Error: None" :=
  empty_response_error_none csW10 "run" "e" (by decide) (by decide)

theorem executeToolAsync_error (t : ToolBehavior) (tst : ToolState) (eid : Nat)
    (kw : List (String × String)) (e : String)
    (hna : t.hasExecAsync = false) (hx : t.onExecute kw = .error e) :
    t.executeToolAsync tst eid kw
      = (.error e,
         ⟨updateRecord
            (evictAppend tst.execution_history tst.max_history_size
              ⟨eid, kw, "started", none, none⟩)
            eid ⟨eid, kw, "failed", none, some e⟩,
          tst.max_history_size⟩) := by
  simp [ToolBehavior.executeToolAsync, hna, hx]

theorem failedRecord_mem (hist : List ExecutionRecord) (maxSize eid : Nat)
    (kw : List (String × String)) (e : String) (hpos : 0 < maxSize) :
    (⟨eid, kw, "failed", none, some e⟩ : ExecutionRecord)
      ∈ updateRecord (evictAppend hist maxSize ⟨eid, kw, "started", none, none⟩)
          eid ⟨eid, kw, "failed", none, some e⟩ :=
  updateRecord_mem _ eid ⟨eid, kw, "started", none, none⟩ _
    (mem_evictAppend_last hist maxSize _ hpos) rfl

/-- C4: failure translation.  When the component logic raises: agents
catch the exception inside `run`/`run_async` and return the descriptive
error string; tools update the execution record to `failed` and re-raise;
the routing layer publishes a `tool.error` event and re-raises; and
`process_command` catches the propagated exception, publishes an `error`
event and converts it to the user-visible "Error: <msg>" string. -/
theorem failure_translation :
    (∀ (a : AgentBehavior) (st : AgentState) (input e : String),
        st.dependencies_checked = true → a.onExecute input = .error e →
        (a.run st input).1 = "Error in agent " ++ a.name ++ ": " ++ e)
    ∧ (∀ (a : AgentBehavior) (st : AgentState) (input e : String),
        st.dependencies_checked = true → a.hasExecAsync = false →
        a.onExecute input = .error e →
        (a.runAsync st input).1 = "Error in agent " ++ a.name ++ ": " ++ e)
    ∧ (∀ (a : AgentBehavior) (st : AgentState) (input e : String),
        st.dependencies_checked = true → a.hasExecAsync = true →
        a.onExecuteAsync input = .error e →
        (a.runAsync st input).1 = "Error in agent " ++ a.name ++ ": " ++ e)
    ∧ (∀ (t : ToolBehavior) (tst : ToolState) (eid : Nat)
        (kw : List (String × String)) (e : String),
        0 < tst.max_history_size → t.onExecute kw = .error e →
        (t.executeTool tst eid kw).1 = .error e
        ∧ (⟨eid, kw, "failed", none, some e⟩ : ExecutionRecord)
            ∈ (t.executeTool tst eid kw).2.execution_history)
    ∧ (∀ (t : ToolBehavior) (tst : ToolState) (eid : Nat)
        (kw : List (String × String)) (e : String),
        0 < tst.max_history_size → t.hasExecAsync = false → t.onExecute kw = .error e →
        (t.executeToolAsync tst eid kw).1 = .error e
        ∧ (⟨eid, kw, "failed", none, some e⟩ : ExecutionRecord)
            ∈ (t.executeToolAsync tst eid kw).2.execution_history)
    ∧ (∀ (cs : ControllerState) (args tname targs : String) (t : ToolBehavior)
        (tst : ToolState) (kw0 : List (String × String)) (e : String),
        pySplit2 args = ["tool", tname, targs] →
        cs.registry.getByName "tool" (pyLower tname) = some (.tool t tst) →
        parseKwargs targs = .ok kw0 →
        t.hasExecAsync = false →
        t.onExecute (effectiveKwargs targs kw0) = .error e →
        0 < cs.bus.max_history_size →
        (routeCommand cs "use" args).1 = .error e
        ∧ (⟨"tool.error", [("tool", pyLower tname), ("args", targs), ("error", e)]⟩ : Event)
            ∈ (routeCommand cs "use" args).2.1.event_history)
    ∧ (∀ (cs : ControllerState) (command args e : String),
        cs.middleware = [] →
        (routeCommand cs command args).1 = .error e →
        0 < (routeCommand cs command args).2.1.max_history_size →
        (processCommand cs command args).1 = "Error: " ++ e
        ∧ (⟨"error", [("message", e), ("command", command), ("args", args)]⟩ : Event)
            ∈ (processCommand cs command args).2.bus.event_history) := by
  refine ⟨?_, ?_, ?_, ?_, ?_, ?_, ?_⟩
  · intro a st input e hd hx
    simp [AgentBehavior.run, hd, hx]
  · intro a st input e hd hna hx
    simp [AgentBehavior.runAsync, hd, hna, hx]
  · intro a st input e hd hna hx
    simp [AgentBehavior.runAsync, hd, hna, hx]
  · intro t tst eid kw e hpos hx
    refine ⟨by simp [ToolBehavior.executeTool, hx], ?_⟩
    simpa [ToolBehavior.executeTool, hx] using
      failedRecord_mem tst.execution_history tst.max_history_size eid kw e hpos
  · intro t tst eid kw e hpos hna hx
    rw [executeToolAsync_error t tst eid kw e hna hx]
    exact ⟨rfl, failedRecord_mem tst.execution_history tst.max_history_size eid kw e hpos⟩
  · intro cs args tname targs t tst kw0 e hsplit hget hkw hna hx hbus
    have hexec := executeToolAsync_error t tst cs.uuidCounter
      (effectiveKwargs targs kw0) e hna hx
    constructor
    · simp [routeCommand, hsplit, hget, hkw, hexec]
    · have h1 : (routeCommand cs "use" args).2.1.event_history
          = evictAppend
              (evictAppend cs.bus.event_history cs.bus.max_history_size
                ⟨"tool.before_use", [("tool", pyLower tname), ("args", targs)]⟩)
              cs.bus.max_history_size
              ⟨"tool.error", [("tool", pyLower tname), ("args", targs), ("error", e)]⟩ := by
        simp [routeCommand, hsplit, hget, hkw, hexec, publishEv, EventBus.publish]
      rw [h1]
      exact mem_evictAppend_last _ _ _ hbus
  · intro cs command args e hmw hroute hbpos
    rcases hr : routeCommand cs command args with ⟨res, b, reg, n⟩
    rw [hr] at hroute hbpos
    simp only at hroute hbpos
    subst hroute
    have hcore : processCore cs command args
        = ({ initCtx command args with error := some e },
           { cs with
              bus := publishEv b
                ⟨"error", [("message", e), ("command", command), ("args", args)]⟩,
              registry := reg, uuidCounter := n }) := by
      simp [processCore, hmw, runPipeline, initCtx, truthyStr, hr]
    constructor
    · simp [processCommand, hcore, truthyStr, pyStr, initCtx]
    · have h2 : (processCommand cs command args).2.bus.event_history
          = evictAppend b.event_history b.max_history_size
              ⟨"error", [("message", e), ("command", command), ("args", args)]⟩ := by
        simp [processCommand, hcore, publishEv, EventBus.publish]
      rw [h2]
      exact mem_evictAppend_last _ _ _ hbpos

/-- Agent whose logic always raises; witnesses agent failure translation. -/
def agentFail : AgentBehavior :=
  ⟨"cody", true, false, fun _ => .error "boom", fun _ => .error "boom"⟩

/-- Tool whose logic always raises; witnesses tool failure translation. -/
def toolFail : ToolBehavior :=
  ⟨"ft", false, fun _ => .error "disk", fun _ => .error "disk"⟩

def csW4 : ControllerState :=
  ⟨(Registry.empty.register "tool" "f" (Component.tool toolFail ToolState.init) "id-f").1,
   EventBus.init, [], [], 0⟩

theorem failure_translation_witness :
    ((agentFail.run ⟨true, []⟩ "x").1 = "Error in agent " ++ agentFail.name ++ ": " ++ "boom")
    ∧ ((toolFail.executeTool ToolState.init 7 [("raw_input", "x")]).1 = .error "disk")
    ∧ ((routeCommand csW4 "use" "tool f x").1 = .error "disk")
    ∧ ((processCommand csW4 "use" "tool f x").1 = "Error: " ++ "disk") :=
  ⟨failure_translation.1 agentFail ⟨true, []⟩ "x" "boom" rfl rfl,
   (failure_translation.2.2.2.1 toolFail ToolState.init 7 [("raw_input", "x")] "disk"
      (by decide) rfl).1,
   (failure_translation.2.2.2.2.2.1 csW4 "tool f x" "f" "x" toolFail ToolState.init []
      "disk" (by decide) rfl rfl rfl rfl (by decide)).1,
   (failure_translation.2.2.2.2.2.2 csW4 "use" "tool f x" "disk" rfl rfl
      (by decide)).1⟩

end MCP
